import Mathlib

/-!
Verification of the response-normalizing and annotation-projecting core of
CXR-AI.py (an interactive chest X-ray analysis app).

The embedding follows the source:
- `parse_gemini_json` (source lines 47-52): strips code-fence markers with two
  chained `str.replace` calls, then attempts a JSON parse; a parse failure is
  caught and surfaced as the empty list.
- field extraction with defaults (source lines 135-138): `d.get` with the
  defaults "Unknown", `[0,0,0,0]`, `""`, `0`.
- box projection (source lines 143-150): per-axis affine map from the 0-1000
  normalized scale to pixel space, then a 5-point closed polygon path.
- the confidence ternary for the overlay color (source line 153) and the
  if/elif/else confidence classification of the findings log (lines 184-195).

Modelling conventions:
- Python numbers (ints and the floats produced by `/`) are modelled as exact
  rationals (`Rat`); the projection formulas are linear, so the claims are
  about the formulas, not float rounding.
- `json.loads` is modelled by `loads`, a recursive-descent parser for the
  RFC 8259 JSON grammar (objects, arrays, strings with escapes, numbers with
  fraction and exponent, the three literals, and the four whitespace
  characters).  Python's non-standard literal extensions (NaN, Infinity,
  -Infinity) and astral-plane surrogate pairing inside string escapes are
  outside the modelled input space; no claim depends on them.  Decoded
  objects keep their key/value pairs in source order; `dictGet` takes the
  last binding of a key, matching the overwrite behavior of the Python dict
  that `json.loads` builds.
- `str.replace` is modelled by `pyReplace`: leftmost, non-overlapping
  replacement of every occurrence, as in Python.
-/

/-- A decoded JSON value, the result type of the modelled `json.loads`. -/
inductive Json where
  | null : Json
  | bool (b : Bool) : Json
  | num (q : Rat) : Json
  | str (s : String) : Json
  | arr (xs : List Json) : Json
  | obj (kvs : List (String × Json)) : Json

/-- The four JSON whitespace characters accepted between tokens. -/
def isWs (c : Char) : Bool :=
  c = ' ' || c = '\t' || c = '\n' || c = '\r'

def skipWs : List Char → List Char
  | [] => []
  | c :: cs => if isWs c then skipWs cs else c :: cs

def digitVal (c : Char) : Nat := c.toNat - '0'.toNat

/-- Split a maximal run of decimal digits off the front of the input. -/
def takeDigits : List Char → List Char × List Char
  | [] => ([], [])
  | c :: cs =>
    if c.isDigit then
      let (ds, r) := takeDigits cs
      (c :: ds, r)
    else ([], c :: cs)

def digitsToNat (ds : List Char) : Nat :=
  ds.foldl (fun a c => a * 10 + digitVal c) 0

def hexVal (c : Char) : Option Nat :=
  if '0' ≤ c ∧ c ≤ '9' then some (c.toNat - '0'.toNat)
  else if 'a' ≤ c ∧ c ≤ 'f' then some (c.toNat - 'a'.toNat + 10)
  else if 'A' ≤ c ∧ c ≤ 'F' then some (c.toNat - 'A'.toNat + 10)
  else none

/-- Assemble a JSON number from its sign, integer part, optional fraction
digits and optional exponent (negative-exponent flag and magnitude). -/
def ratOfParts (neg : Bool) (ip : Nat) (fd : Option (List Char)) (ex : Option (Bool × Nat)) : Rat :=
  let mant : Rat :=
    match fd with
    | none => (ip : Rat)
    | some ds => (ip : Rat) + (digitsToNat ds : Rat) / (10 : Rat) ^ ds.length
  let mag : Rat :=
    match ex with
    | none => mant
    | some (en, e) => if en then mant / (10 : Rat) ^ e else mant * (10 : Rat) ^ e
  if neg then -mag else mag

/-- Parse an optional exponent part: `e`/`E`, an optional sign, and at least
one digit. -/
def parseExpPart : List Char → Option (Option (Bool × Nat) × List Char)
  | 'e' :: '+' :: r =>
    (match takeDigits r with
     | ([], _) => none
     | (ds, r2) => some (some (false, digitsToNat ds), r2))
  | 'e' :: '-' :: r =>
    (match takeDigits r with
     | ([], _) => none
     | (ds, r2) => some (some (true, digitsToNat ds), r2))
  | 'e' :: r =>
    (match takeDigits r with
     | ([], _) => none
     | (ds, r2) => some (some (false, digitsToNat ds), r2))
  | 'E' :: '+' :: r =>
    (match takeDigits r with
     | ([], _) => none
     | (ds, r2) => some (some (false, digitsToNat ds), r2))
  | 'E' :: '-' :: r =>
    (match takeDigits r with
     | ([], _) => none
     | (ds, r2) => some (some (true, digitsToNat ds), r2))
  | 'E' :: r =>
    (match takeDigits r with
     | ([], _) => none
     | (ds, r2) => some (some (false, digitsToNat ds), r2))
  | cs => some (none, cs)

/-- Parse the optional fraction (a dot followed by at least one digit) and
exponent that may follow the integer part of a number. -/
def parseFracExp (neg : Bool) (ip : Nat) : List Char → Option (Json × List Char)
  | '.' :: r =>
    (match takeDigits r with
     | ([], _) => none
     | (ds, r2) =>
       match parseExpPart r2 with
       | some (ex, r3) => some (Json.num (ratOfParts neg ip (some ds) ex), r3)
       | none => none)
  | cs =>
    match parseExpPart cs with
    | some (ex, r3) => some (Json.num (ratOfParts neg ip none ex), r3)
    | none => none

/-- Parse the digits of a number after the optional minus sign.  A leading
zero ends the integer part immediately, as in the JSON grammar. -/
def parseNumBody (neg : Bool) : List Char → Option (Json × List Char)
  | [] => none
  | c :: r =>
    if c = '0' then parseFracExp neg 0 r
    else if c.isDigit then
      match takeDigits r with
      | (ds, r2) => parseFracExp neg (digitsToNat (c :: ds)) r2
    else none

def parseNumber : List Char → Option (Json × List Char)
  | '-' :: r => parseNumBody true r
  | cs => parseNumBody false cs

/-- Parse the body of a JSON string after the opening quote, handling the
escape sequences of the grammar and rejecting raw control characters. -/
def parseStringBody (fuel : Nat) (cs : List Char) (acc : List Char) : Option (String × List Char) :=
  match fuel, cs with
  | 0, _ => none
  | _, [] => none
  | Nat.succ fuel, c :: r =>
    if c = '"' then some (String.mk acc.reverse, r)
    else if c = '\\' then
      match r with
      | [] => none
      | e :: r2 =>
        if e = '"' then parseStringBody fuel r2 ('"' :: acc)
        else if e = '\\' then parseStringBody fuel r2 ('\\' :: acc)
        else if e = '/' then parseStringBody fuel r2 ('/' :: acc)
        else if e = 'b' then parseStringBody fuel r2 ('\x08' :: acc)
        else if e = 'f' then parseStringBody fuel r2 ('\x0c' :: acc)
        else if e = 'n' then parseStringBody fuel r2 ('\n' :: acc)
        else if e = 'r' then parseStringBody fuel r2 ('\r' :: acc)
        else if e = 't' then parseStringBody fuel r2 ('\t' :: acc)
        else if e = 'u' then
          match r2 with
          | h1 :: h2 :: h3 :: h4 :: r3 =>
            (match hexVal h1, hexVal h2, hexVal h3, hexVal h4 with
             | some a, some b, some c2, some d =>
               parseStringBody fuel r3 (Char.ofNat (((a * 16 + b) * 16 + c2) * 16 + d) :: acc)
             | _, _, _, _ => none)
          | _ => none
        else none
    else if c.toNat < 32 then none
    else parseStringBody fuel r (c :: acc)

mutual

/-- Parse one JSON value.  The fuel only bounds the nesting-driven mutual
recursion; `loads` supplies more fuel than any input can consume. -/
def parseValue : Nat → List Char → Option (Json × List Char)
  | 0, _ => none
  | Nat.succ fuel, cs =>
    match skipWs cs with
    | 'n' :: 'u' :: 'l' :: 'l' :: r => some (Json.null, r)
    | 't' :: 'r' :: 'u' :: 'e' :: r => some (Json.bool true, r)
    | 'f' :: 'a' :: 'l' :: 's' :: 'e' :: r => some (Json.bool false, r)
    | '"' :: r =>
      (match parseStringBody (r.length + 1) r [] with
       | some (s, r2) => some (Json.str s, r2)
       | none => none)
    | '[' :: r =>
      (match skipWs r with
       | ']' :: r2 => some (Json.arr [], r2)
       | r2 =>
         match parseElems fuel r2 with
         | some (xs, r3) => some (Json.arr xs, r3)
         | none => none)
    | '\x7b' :: r =>
      (match skipWs r with
       | '\x7d' :: r2 => some (Json.obj [], r2)
       | r2 =>
         match parseMembers fuel r2 with
         | some (kvs, r3) => some (Json.obj kvs, r3)
         | none => none)
    | r => parseNumber r

/-- Parse the comma-separated elements of a non-empty array, consuming the
closing bracket. -/
def parseElems : Nat → List Char → Option (List Json × List Char)
  | 0, _ => none
  | Nat.succ fuel, cs =>
    match parseValue fuel cs with
    | some (v, r) =>
      (match skipWs r with
       | ',' :: r2 =>
         (match parseElems fuel r2 with
          | some (vs, r3) => some (v :: vs, r3)
          | none => none)
       | ']' :: r2 => some ([v], r2)
       | _ => none)
    | none => none

/-- Parse the comma-separated members of a non-empty object, consuming the
closing brace. -/
def parseMembers : Nat → List Char → Option (List (String × Json) × List Char)
  | 0, _ => none
  | Nat.succ fuel, cs =>
    match skipWs cs with
    | '"' :: r =>
      (match parseStringBody (r.length + 1) r [] with
       | some (k, r2) =>
         (match skipWs r2 with
          | ':' :: r3 =>
            (match parseValue fuel r3 with
             | some (v, r4) =>
               (match skipWs r4 with
                | ',' :: r5 =>
                  (match parseMembers fuel r5 with
                   | some (kvs, r6) => some ((k, v) :: kvs, r6)
                   | none => none)
                | '\x7d' :: r5 => some ([(k, v)], r5)
                | _ => none)
             | none => none)
          | _ => none)
       | none => none)
    | _ => none

end

/-- Model of Python `json.loads`: parse one value and require only trailing
whitespace after it; any other input yields `none` (the model of
`json.JSONDecodeError`). -/
def loads (cs : List Char) : Option Json :=
  match parseValue (3 * cs.length + 8) cs with
  | some (v, r) => if (skipWs r).isEmpty then some v else none
  | none => none

/-- Boolean prefix test used by the `str.replace` model. -/
def isPrefixSeq : List Char → List Char → Bool
  | [], _ => true
  | _ :: _, [] => false
  | p :: ps, c :: cs => p == c && isPrefixSeq ps cs

/-- Does `pat` occur as a contiguous subsequence of `s`? -/
def containsSeq : List Char → List Char → Bool
  | [], pat => pat.isEmpty
  | c :: cs, pat => isPrefixSeq pat (c :: cs) || containsSeq cs pat

/-- Fueled worker for `pyReplace`; each step consumes at least one input
character, so fuel equal to the input length suffices. -/
def pyReplaceAux : Nat → List Char → List Char → List Char → List Char
  | 0, s, _, _ => s
  | Nat.succ fuel, s, pat, rep =>
    match s with
    | [] => []
    | c :: cs =>
      if !pat.isEmpty && isPrefixSeq pat (c :: cs) then
        rep ++ pyReplaceAux fuel ((c :: cs).drop pat.length) pat rep
      else
        c :: pyReplaceAux fuel cs pat rep

/-- Model of Python `str.replace(pat, rep)` for a non-empty pattern: replace
every occurrence, leftmost first, without overlap. -/
def pyReplace (s pat rep : List Char) : List Char :=
  pyReplaceAux s.length s pat rep

def fenceJson : List Char := "```json".data

def fence : List Char := "```".data

/-- The fence-stripping step of `parse_gemini_json` (source line 49):
`text.replace("```json", "").replace("```", "")`. -/
def stripFences (cs : List Char) : List Char :=
  pyReplace (pyReplace cs fenceJson []) fence []

/-- Source lines 47-52: strip fence markers, attempt a JSON parse, and turn a
parse failure into the empty list.  The function is total: the only failure
of the modelled `json.loads` is the caught decode error. -/
def parse_gemini_json (text : String) : Json :=
  match loads (stripFences text.data) with
  | some v => v
  | none => Json.arr []

/-- Model of `d.get(k, dflt)` on the dict decoded for a finding: the last
binding of the key wins (the Python dict built by `json.loads` keeps the
last duplicate), and a missing key yields the default. -/
def dictGet (kvs : List (String × Json)) (k : String) (dflt : Json) : Json :=
  match (kvs.filter (fun kv => kv.1 == k)).getLast? with
  | some kv => kv.2
  | none => dflt

/-- The four per-finding values read at source lines 135-138. -/
structure FindingFields where
  label : Json
  box : Json
  desc : Json
  conf : Json

/-- The default box `[0,0,0,0]` of source line 136. -/
def defaultBox : Json := Json.arr [Json.num 0, Json.num 0, Json.num 0, Json.num 0]

/-- Source lines 135-138: read the four fields of one finding with their
defaults. -/
def extractFields (d : List (String × Json)) : FindingFields :=
  ⟨dictGet d "label" (Json.str "Unknown"),
   dictGet d "box_2d" defaultBox,
   dictGet d "description" (Json.str ""),
   dictGet d "confidence" (Json.num 0)⟩

/-- The per-finding loop of source line 134: each finding is processed
independently of the others. -/
def processDetections (ds : List (List (String × Json))) : List FindingFields :=
  ds.map extractFields

/-- The local values computed for one finding at source lines 143-150. -/
structure Projection where
  abs_y1 : Rat
  abs_x1 : Rat
  abs_y2 : Rat
  abs_x2 : Rat
  x_path : List Rat
  y_path : List Rat
deriving DecidableEq

/-- Source lines 143-150: unpack the box (a list of exactly four numbers;
anything else raises in Python, modelled by `none`), scale each component
from the 0-1000 grid to pixels, and build the closed 5-point path. -/
def projectBox (box : List Rat) (width height : Rat) : Option Projection :=
  match box with
  | [y_min, x_min, y_max, x_max] =>
    let abs_y1 := (y_min / 1000) * height
    let abs_x1 := (x_min / 1000) * width
    let abs_y2 := (y_max / 1000) * height
    let abs_x2 := (x_max / 1000) * width
    some ⟨abs_y1, abs_x1, abs_y2, abs_x2,
      [abs_x1, abs_x2, abs_x2, abs_x1, abs_x1],
      [abs_y1, abs_y1, abs_y2, abs_y2, abs_y1]⟩
  | _ => none

/-- The polygon vertices, pairing the path lists pointwise as Plotly does. -/
def pathPoints (p : Projection) : List (Rat × Rat) := p.x_path.zip p.y_path

/-- Source line 153: the overlay fill color chosen from the confidence. -/
def box_color (conf : Int) : String :=
  if conf ≥ 70 then "rgba(0, 255, 0, 0.2)"
  else if conf ≥ 40 then "rgba(255, 165, 0, 0.2)"
  else "rgba(255, 0, 0, 0.2)"

/-- Source lines 184-195: the color/icon/status triple of the findings log. -/
def logClassify (conf : Int) : String × String × String :=
  if conf ≥ 70 then ("green", "✅", "High Accuracy")
  else if conf ≥ 40 then ("orange", "⚠️", "Moderate Accuracy")
  else ("red", "❓", "Low Accuracy")

/-- Is the decoded value a JSON array? -/
def jsonIsArr : Json → Bool
  | Json.arr _ => true
  | _ => false

/-- The label of the first finding of a decoded array, read with the default
of source line 135; used to tell two parse results apart. -/
def firstLabel (j : Json) : Json :=
  match j with
  | Json.arr (Json.obj kvs :: _) => dictGet kvs "label" (Json.str "Unknown")
  | _ => Json.str "Unknown"

/-- A valid JSON array of one well-formed finding whose label contains a
fence marker. -/
def cexInput : String :=
  "[\x7b\"label\":\"```\",\"box_2d\":[1,2,3,4],\"description\":\"d\",\"confidence\":50\x7d]"

/-- The value `json.loads` decodes `cexInput` to. -/
def cexDecoded : List Json :=
  [Json.obj [("label", Json.str "```"),
             ("box_2d", Json.arr [Json.num 1, Json.num 2, Json.num 3, Json.num 4]),
             ("description", Json.str "d"),
             ("confidence", Json.num 50)]]

/-- A fence-free valid JSON array of one well-formed finding. -/
def wfInput : String :=
  "[\x7b\"label\":\"Nodule\",\"box_2d\":[500,300,550,350],\"description\":\"Faint opacity\",\"confidence\":45\x7d]"

/-- The value `json.loads` decodes `wfInput` to. -/
def wfDecoded : List Json :=
  [Json.obj [("label", Json.str "Nodule"),
             ("box_2d", Json.arr [Json.num 500, Json.num 300, Json.num 550, Json.num 350]),
             ("description", Json.str "Faint opacity"),
             ("confidence", Json.num 45)]]

/-- A prefix of the left part of an appended pattern is a prefix of the
whole pattern's match site. -/
theorem isPrefixSeq_append_left (p q l : List Char) (h : isPrefixSeq (p ++ q) l = true) :
    isPrefixSeq p l = true := by
  induction p generalizing l with
  | nil => rfl
  | cons a ps ih =>
    cases l with
    | nil => simp [isPrefixSeq] at h
    | cons c cs =>
      simp only [List.cons_append, isPrefixSeq, Bool.and_eq_true] at h ⊢
      exact ⟨h.1, ih cs h.2⟩

/-- If an appended pattern occurs in a string, so does its left part. -/
theorem containsSeq_append_left (s p q : List Char) (h : containsSeq s (p ++ q) = true) :
    containsSeq s p = true := by
  induction s with
  | nil =>
    simp only [containsSeq, List.isEmpty_iff, List.append_eq_nil] at h ⊢
    exact h.1
  | cons c cs ih =>
    simp only [containsSeq, Bool.or_eq_true] at h ⊢
    cases h with
    | inl h1 => exact Or.inl (isPrefixSeq_append_left p q (c :: cs) h1)
    | inr h2 => exact Or.inr (ih h2)

/-- Replacing a pattern that does not occur leaves the input unchanged. -/
theorem pyReplaceAux_of_not_contains (pat rep : List Char) (fuel : Nat) (s : List Char)
    (h : containsSeq s pat = false) : pyReplaceAux fuel s pat rep = s := by
  induction fuel generalizing s with
  | zero => rfl
  | succ fuel ih =>
    cases s with
    | nil => rfl
    | cons c cs =>
      simp only [containsSeq, Bool.or_eq_false_iff] at h
      have hcond : (!pat.isEmpty && isPrefixSeq pat (c :: cs)) = false := by
        rw [h.1, Bool.and_false]
      simp [pyReplaceAux, hcond, ih cs h.2]

/-- `pyReplace` is the identity when the pattern does not occur. -/
theorem pyReplace_of_not_contains (pat rep s : List Char)
    (h : containsSeq s pat = false) : pyReplace s pat rep = s :=
  pyReplaceAux_of_not_contains pat rep s.length s h

/-- Fence stripping is the identity on strings with no occurrence of three
consecutive backticks. -/
theorem stripFences_of_not_contains (s : List Char)
    (h : containsSeq s fence = false) : stripFences s = s := by
  have hj : containsSeq s fenceJson = false := by
    cases hc : containsSeq s fenceJson with
    | false => rfl
    | true =>
      have h2 : containsSeq s fence = true :=
        containsSeq_append_left s fence "json".data hc
      rw [h2] at h
      exact Bool.noConfusion h
  unfold stripFences
  rw [pyReplace_of_not_contains _ _ _ hj, pyReplace_of_not_contains _ _ _ h]

/-- A key with no binding in the decoded finding yields the default. -/
theorem dictGet_of_missing (kvs : List (String × Json)) (k : String) (dflt : Json)
    (h : kvs.filter (fun kv => kv.1 == k) = []) : dictGet kvs k dflt = dflt := by
  unfold dictGet
  rw [h]
  rfl

/-- C1: for every input string whose fence-stripped form is not valid JSON,
`parse_gemini_json` returns the empty list; the function is total, so no
exception reaches the caller (the decode error is caught at source line 51
and mapped to `[]` at line 52). -/
theorem parse_gemini_json_fail_soft (s : String)
    (h : loads (stripFences s.data) = none) : parse_gemini_json s = Json.arr [] := by
  unfold parse_gemini_json
  rw [h]

/-- Witness for C1: the conversational reply from the spec is rejected by the
parser and mapped to the empty list. -/
theorem parse_gemini_json_fail_soft_witness :
    loads (stripFences "Sorry, I cannot analyze this image.".data) = none ∧
    parse_gemini_json "Sorry, I cannot analyze this image." = Json.arr [] :=
  ⟨rfl, parse_gemini_json_fail_soft "Sorry, I cannot analyze this image." rfl⟩

/-- C2 counterexample: `cexInput` is a valid JSON array of one well-formed
finding object, yet `parse_gemini_json` does not round-trip it, because the
two `replace` calls delete fence markers everywhere in the string, including
inside JSON string values: the label `"```"` comes back as `""`. -/
theorem parse_gemini_json_roundtrip_cex :
    loads cexInput.data = some (Json.arr cexDecoded) ∧
    parse_gemini_json cexInput ≠ Json.arr cexDecoded := by
  refine ⟨rfl, fun hEq => ?_⟩
  have h1 : firstLabel (parse_gemini_json cexInput) = Json.str "" := rfl
  rw [hEq] at h1
  have h2 : firstLabel (Json.arr cexDecoded) = Json.str "```" := rfl
  rw [h1] at h2
  simp at h2

/-- C2 (amended): fence markers are removed everywhere in the string, not
only as surrounding markup; for every input with no occurrence of three
consecutive backticks that decodes to a JSON array, `parse_gemini_json`
returns exactly that array, so the sequence has the same length and every
field of every finding is round-tripped exactly. -/
theorem parse_gemini_json_roundtrip_nofence (s : String) (l : List Json)
    (hfence : containsSeq s.data fence = false)
    (hparse : loads s.data = some (Json.arr l)) :
    parse_gemini_json s = Json.arr l := by
  unfold parse_gemini_json
  rw [stripFences_of_not_contains s.data hfence, hparse]

/-- Witness for the amended C2: a fence-free one-finding array is decoded and
returned unchanged. -/
theorem parse_gemini_json_roundtrip_nofence_witness :
    containsSeq wfInput.data fence = false ∧
    loads wfInput.data = some (Json.arr wfDecoded) ∧
    parse_gemini_json wfInput = Json.arr wfDecoded :=
  ⟨rfl, rfl, parse_gemini_json_roundtrip_nofence wfInput wfDecoded rfl rfl⟩

/-- C3 counterexample: the claim says every confidence outside [0, 100] falls
through to the low bucket, but 101 satisfies the first comparison
`conf >= 70` and is classified high. -/
theorem conf_out_of_range_cex :
    (101 : Int) > 100 ∧ (logClassify 101).2.2 = "High Accuracy" ∧
    ¬ (logClassify 101).2.2 = "Low Accuracy" := by decide

/-- C3 (amended): a negative confidence falls through both comparisons to the
low bucket, while a confidence greater than 100 satisfies the first
comparison and is classified high. -/
theorem conf_out_of_range_amended (c : Int) :
    (c < 0 → (logClassify c).2.2 = "Low Accuracy") ∧
    (c > 100 → (logClassify c).2.2 = "High Accuracy") := by
  constructor
  · intro h
    have h1 : ¬ c ≥ 70 := by omega
    have h2 : ¬ c ≥ 40 := by omega
    simp [logClassify, h1, h2]
  · intro h
    have h1 : c ≥ 70 := by omega
    simp [logClassify, h1]

/-- Witness for the amended C3: -5 is classified low and 150 high. -/
theorem conf_out_of_range_amended_witness :
    (logClassify (-5)).2.2 = "Low Accuracy" ∧ (logClassify 150).2.2 = "High Accuracy" :=
  ⟨(conf_out_of_range_amended (-5)).1 (by norm_num),
   (conf_out_of_range_amended 150).2 (by norm_num)⟩

/-- C4: on [0, 100] the bucketing is high iff the confidence is at least 70,
moderate iff it is at least 40 and below 70, and low iff it is below 40;
both boundaries are inclusive on the stated side. -/
theorem conf_bucket_boundaries (c : Int) (h0 : 0 ≤ c) (h100 : c ≤ 100) :
    ((logClassify c).2.2 = "High Accuracy" ↔ 70 ≤ c) ∧
    ((logClassify c).2.2 = "Moderate Accuracy" ↔ 40 ≤ c ∧ c < 70) ∧
    ((logClassify c).2.2 = "Low Accuracy" ↔ c < 40) := by
  by_cases h1 : c ≥ 70 <;> by_cases h2 : c ≥ 40 <;>
    simp [logClassify, h1, h2] <;> omega

/-- Witness for C4: the spec's sample points, including both boundaries. -/
theorem conf_bucket_boundaries_witness :
    (logClassify 70).2.2 = "High Accuracy" ∧
    (logClassify 40).2.2 = "Moderate Accuracy" ∧
    (logClassify 95).2.2 = "High Accuracy" ∧
    (logClassify 55).2.2 = "Moderate Accuracy" ∧
    (logClassify 10).2.2 = "Low Accuracy" :=
  ⟨(conf_bucket_boundaries 70 (by norm_num) (by norm_num)).1.mpr (by norm_num),
   (conf_bucket_boundaries 40 (by norm_num) (by norm_num)).2.1.mpr (by norm_num),
   (conf_bucket_boundaries 95 (by norm_num) (by norm_num)).1.mpr (by norm_num),
   (conf_bucket_boundaries 55 (by norm_num) (by norm_num)).2.1.mpr (by norm_num),
   (conf_bucket_boundaries 10 (by norm_num) (by norm_num)).2.2.mpr (by norm_num)⟩

/-- C5: for every four-component box and positive dimensions, every pixel
coordinate is the per-axis affine image `(normalized / 1000) * dimension`,
applied independently to all four components. -/
theorem projector_affine (y_min x_min y_max x_max W H : Rat)
    (hW : 0 < W) (hH : 0 < H) :
    projectBox [y_min, x_min, y_max, x_max] W H =
      some ⟨(y_min / 1000) * H, (x_min / 1000) * W, (y_max / 1000) * H, (x_max / 1000) * W,
        [(x_min / 1000) * W, (x_max / 1000) * W, (x_max / 1000) * W,
         (x_min / 1000) * W, (x_min / 1000) * W],
        [(y_min / 1000) * H, (y_min / 1000) * H, (y_max / 1000) * H,
         (y_max / 1000) * H, (y_min / 1000) * H]⟩ := rfl

/-- Witness for C5: the spec's example box [500,300,900,700] at W = H = 1000
lands on y coordinates 500 and 900 and x coordinates 300 and 700. -/
theorem projector_affine_witness :
    (0 : Rat) < 1000 ∧
    projectBox [500, 300, 900, 700] 1000 1000 =
      some ⟨500, 300, 900, 700, [300, 700, 700, 300, 300], [500, 500, 900, 900, 500]⟩ := by
  refine ⟨by norm_num, ?_⟩
  rw [projector_affine 500 300 900 700 1000 1000 (by norm_num) (by norm_num)]
  simp only [Option.some.injEq, Projection.mk.injEq]
  norm_num

/-- C6: the projector emits the four pixel corners as a 5-point closed
polygon with the first point repeated, in the order top-left, top-right,
bottom-right, bottom-left, top-left (image coordinates, y growing down). -/
theorem projector_closed_path (y_min x_min y_max x_max W H : Rat)
    (hW : 0 < W) (hH : 0 < H) :
    ∃ p, projectBox [y_min, x_min, y_max, x_max] W H = some p ∧
      pathPoints p =
        [((x_min / 1000) * W, (y_min / 1000) * H),
         ((x_max / 1000) * W, (y_min / 1000) * H),
         ((x_max / 1000) * W, (y_max / 1000) * H),
         ((x_min / 1000) * W, (y_max / 1000) * H),
         ((x_min / 1000) * W, (y_min / 1000) * H)] ∧
      (pathPoints p).length = 5 ∧
      (pathPoints p).head? = (pathPoints p).getLast? :=
  ⟨_, rfl, rfl, rfl, rfl⟩

/-- Witness for C6: the box [0,0,1000,1000] at W = 3, H = 5 yields the
corners (0,0), (W,0), (W,H), (0,H), (0,0) in order. -/
theorem projector_closed_path_witness :
    ∃ p, projectBox [0, 0, 1000, 1000] 3 5 = some p ∧
      pathPoints p = [(0, 0), (3, 0), (3, 5), (0, 5), (0, 0)] := by
  obtain ⟨p, h1, h2, _, _⟩ :=
    projector_closed_path 0 0 1000 1000 3 5 (by norm_num) (by norm_num)
  refine ⟨p, h1, ?_⟩
  rw [h2]
  norm_num

/-- C8: for every four-component box and positive dimensions the projector
computes a result (never an error), even with an inverted box or components
outside [0, 1000]; the components are the unclamped affine images. -/
theorem projector_total_no_clamp (a b c d W H : Rat) (hW : 0 < W) (hH : 0 < H) :
    (projectBox [a, b, c, d] W H).isSome = true ∧
    projectBox [a, b, c, d] W H =
      some ⟨(a / 1000) * H, (b / 1000) * W, (c / 1000) * H, (d / 1000) * W,
        [(b / 1000) * W, (d / 1000) * W, (d / 1000) * W, (b / 1000) * W, (b / 1000) * W],
        [(a / 1000) * H, (a / 1000) * H, (c / 1000) * H, (c / 1000) * H, (a / 1000) * H]⟩ :=
  ⟨rfl, rfl⟩

/-- Witness for C8: box [900, 1200, 100, -50] has y_min > y_max and two
components outside [0, 1000]; at W = 2, H = 4 the projector still produces
the unclamped result, part of it outside the canvas. -/
theorem projector_total_no_clamp_witness :
    (900 : Rat) > 100 ∧ (1200 : Rat) > 1000 ∧ (-50 : Rat) < 0 ∧
    projectBox [900, 1200, 100, -50] 2 4 =
      some ⟨18/5, 12/5, 2/5, -1/10,
        [12/5, -1/10, -1/10, 12/5, 12/5], [18/5, 18/5, 2/5, 2/5, 18/5]⟩ := by
  refine ⟨by norm_num, by norm_num, by norm_num, ?_⟩
  rw [(projector_total_no_clamp 900 1200 100 (-50) 2 4 (by norm_num) (by norm_num)).2]
  simp only [Option.some.injEq, Projection.mk.injEq]
  norm_num

/-- C7: every field missing from a decoded finding is substituted by its
default (label "Unknown", box [0,0,0,0], description "", confidence 0), and
processing one finding never blocks the rest: the processed sequence always
has the length of the input sequence. -/
theorem missing_fields_default (d : List (String × Json)) :
    (d.filter (fun kv => kv.1 == "label") = [] →
      (extractFields d).label = Json.str "Unknown") ∧
    (d.filter (fun kv => kv.1 == "box_2d") = [] →
      (extractFields d).box = defaultBox) ∧
    (d.filter (fun kv => kv.1 == "description") = [] →
      (extractFields d).desc = Json.str "") ∧
    (d.filter (fun kv => kv.1 == "confidence") = [] →
      (extractFields d).conf = Json.num 0) ∧
    ∀ ds : List (List (String × Json)), (processDetections ds).length = ds.length := by
  refine ⟨fun h => dictGet_of_missing _ _ _ h, fun h => dictGet_of_missing _ _ _ h,
    fun h => dictGet_of_missing _ _ _ h, fun h => dictGet_of_missing _ _ _ h,
    fun ds => ?_⟩
  simp [processDetections]

/-- Witness for C7: a finding with only a label gets the three other
defaults, an empty finding gets the default label, and a two-element
detection list is processed to two results. -/
theorem missing_fields_default_witness :
    (extractFields [("label", Json.str "Nodule")]).desc = Json.str "" ∧
    (extractFields [("label", Json.str "Nodule")]).box = defaultBox ∧
    (extractFields [("label", Json.str "Nodule")]).conf = Json.num 0 ∧
    (extractFields []).label = Json.str "Unknown" ∧
    (processDetections [[("label", Json.str "A")], []]).length = 2 :=
  ⟨(missing_fields_default [("label", Json.str "Nodule")]).2.2.1 rfl,
   (missing_fields_default [("label", Json.str "Nodule")]).2.1 rfl,
   (missing_fields_default [("label", Json.str "Nodule")]).2.2.2.1 rfl,
   (missing_fields_default []).1 rfl,
   (missing_fields_default []).2.2.2.2 [[("label", Json.str "A")], []]⟩

/-- C9: the input "42" is valid JSON but not an array, and
`parse_gemini_json` returns the decoded number unchanged, so the output is
not always a sequence of finding records. -/
theorem parse_gemini_json_nonarray :
    parse_gemini_json "42" = Json.num 42 ∧
    jsonIsArr (parse_gemini_json "42") = false :=
  ⟨rfl, rfl⟩

/-- C10: the overlay color of source line 153 and the findings-log status of
lines 184-195 classify every confidence into the same tier, and both agree
with the 70/40 thresholds. -/
theorem box_color_log_equiv (conf : Int) :
    (box_color conf = "rgba(0, 255, 0, 0.2)" ↔ (logClassify conf).2.2 = "High Accuracy") ∧
    (box_color conf = "rgba(255, 165, 0, 0.2)" ↔ (logClassify conf).2.2 = "Moderate Accuracy") ∧
    (box_color conf = "rgba(255, 0, 0, 0.2)" ↔ (logClassify conf).2.2 = "Low Accuracy") ∧
    (box_color conf = "rgba(0, 255, 0, 0.2)" ↔ 70 ≤ conf) ∧
    (box_color conf = "rgba(255, 165, 0, 0.2)" ↔ 40 ≤ conf ∧ conf < 70) ∧
    (box_color conf = "rgba(255, 0, 0, 0.2)" ↔ conf < 40) := by
  by_cases h1 : conf ≥ 70 <;> by_cases h2 : conf ≥ 40 <;>
    simp [box_color, logClassify, h1, h2] <;> omega
